import Mathlib

/-!
Shallow embedding of the event-stream batch collation routine
`event_stream_collate_fn` of the event-ssm tutorial notebooks, together
with theorems settling the specified properties of that routine.

The source routine receives a batch (a Python list whose elements are
tuples, normally `(events, label)` pairs), a spatial `resolution` (a
sequence of 1 or 2 sizes), a `pad_unit`, and a `no_time_information`
flag.  Each `events` object is a NumPy structured array of records with
fields `t` (timestamp in microseconds), `x`, `y` (spatial coordinates)
and `p` (polarity); a structured array is modelled here as a `List` of
`Event` records, so that the field projections `e[t]`, `e[x]`, ... are
`List.map` of the record projections and automatically share one length,
exactly as in NumPy.

Machine integers are modelled as `Int` (the values involved are sensor
coordinates and timestamps, far below the `int32`/`int64` bounds, so no
wrap-around occurs in the source), and the final division by 1000
(microseconds to milliseconds) produces rationals `ℚ`, modelling NumPy
float division exactly on these inputs.

Python failure modes are made explicit in an `Except` result:
`ValueError` unpacking an empty batch, the `assert len(z) == 0`
statement, and the `raise ValueError` for a resolution that has neither
1 nor 2 elements.
-/

namespace EventSSM

/-- One event record of a NumPy structured event array: timestamp `t`
(microseconds), spatial coordinates `x`, `y`, polarity `p`. -/
structure Event where
  t : Int
  x : Int
  y : Int
  p : Int
deriving Repr, DecidableEq

/-- One element of the Python batch list.  The source unpacks each
element as a tuple; the normal shape is the pair `(events, label)`.
`extra` holds any components beyond those two (a triple has one
`extra` component, and so on). -/
structure BatchElem where
  events : List Event
  label : Int
  extra : List Int
deriving Repr, DecidableEq

/-- The exceptions `event_stream_collate_fn` can raise: the
`ValueError` of unpacking `x, y, *z = zip(*batch)` on an empty batch,
the failure of `assert len(z) == 0`, and the explicit
`raise ValueError` for a resolution of arity other than 1 or 2. -/
inductive CollateError where
  | emptyBatch
  | assertExtra
  | badResolution
deriving Repr, DecidableEq

/-- The shape of the returned `lengths` array: a 1-D vector in general,
reshaped to 2-D (`lengths[None, ...]`) when the batch has one sample. -/
inductive LengthsArr where
  | oneD : List Int → LengthsArr
  | twoD : List (List Int) → LengthsArr
deriving Repr, DecidableEq

/-- The tuple returned by `event_stream_collate_fn`:
`(tokens, y, timesteps, lengths)`. -/
structure CollateOutput where
  tokens : List (List Int)
  labels : List Int
  timesteps : List (List ℚ)
  lengths : LengthsArr
deriving Repr, DecidableEq

/-- Model of `np.diff` on a 1-D integer array: consecutive differences,
one element shorter than the input. -/
def np_diff (l : List Int) : List Int :=
  List.zipWith (fun a b => b - a) l l.tail

/-- Model of `np.prod(resolution)` for an integer resolution tuple. -/
def np_prod (resolution : List Nat) : Int :=
  ((resolution.foldl (· * ·) 1 : Nat) : Int)

/-- Per-sample integration timesteps, from the source lines
`timesteps = [np.ones_like(e['t'][:-1]) for e in x]` (when
`no_time_information` is set) and `timesteps = [np.diff(e['t']) for e in x]`
(otherwise). -/
def sample_timesteps (no_time_information : Bool) (es : List Event) : List Int :=
  if no_time_information then (es.dropLast).map (fun _ => (1 : Int))
  else np_diff (es.map Event.t)

/-- Per-sample tokens in the 1-D resolution branch:
`e['x'][:-1].astype(np.int32)`. -/
def sample_tokens1 (es : List Event) : List Int :=
  (es.dropLast).map Event.x

/-- Per-sample tokens in the 2-D resolution branch:
`(e['x'][:-1] * e['y'][:-1] + np.prod(resolution) * e['p'][:-1].astype(np.int32)).astype(np.int32)`,
an elementwise array expression. -/
def sample_tokens2 (pr : Int) (es : List Event) : List Int :=
  List.zipWith (fun xy p => xy + pr * p)
    (List.zipWith (· * ·) ((es.dropLast).map Event.x) ((es.dropLast).map Event.y))
    ((es.dropLast).map Event.p)

/-- Model of `np.pad(e, (0, n - len(e)), mode='constant', constant_values=c)`
for 1-D arrays (the pad widths in the source are never negative). -/
def pad_list (c : Int) (n : Nat) (l : List Int) : List Int :=
  l ++ List.replicate (n - l.length) c

/-- The batch pad length of the source:
`pad_length = (lengths.max() // pad_unit) * pad_unit + pad_unit`. -/
def pad_length_of (max_len pad_unit : Nat) : Nat :=
  max_len / pad_unit * pad_unit + pad_unit

/-- Elementwise model of the rescaling `timesteps = timesteps / 1000`
(microseconds to milliseconds) applied to the padded integer arrays. -/
def to_ms (v : Int) : Rat :=
  (v : Rat) / 1000

/-- Model of `lengths.max()` on the nonempty 1-D array of per-sample
lengths. -/
def lengths_max (lengths : List Nat) : Nat :=
  lengths.foldl Nat.max 0

/-- Shallow embedding of `event_stream_collate_fn(batch, resolution,
pad_unit, no_time_information=False)` from the tutorial notebook,
line by line:

* `x, y, *z = zip(*batch)` — raises on an empty batch; since Python
  `zip` truncates to the shortest tuple, `z` is nonempty (and the
  following `assert len(z) == 0` fails) exactly when every batch
  element has a component beyond the `(events, label)` pair;
* `y = np.stack(y)`;
* per-sample `timesteps` from the `no_time_information` flag;
* per-sample `tokens` from the arity of `resolution`, raising
  `ValueError` for any arity other than 1 and 2;
* `lengths`, `pad_length`, padding of tokens with `-1` and of
  timesteps with `0`;
* `timesteps = timesteps / 1000`;
* `lengths = lengths[None, ...]` when the batch has a single sample.
-/
def event_stream_collate_fn (batch : List BatchElem) (resolution : List Nat)
    (pad_unit : Nat) (no_time_information : Bool := false) :
    Except CollateError CollateOutput :=
  if batch.isEmpty then .error .emptyBatch
  else if batch.all (fun b => !b.extra.isEmpty) then .error .assertExtra
  else
    let y := batch.map BatchElem.label
    let timesteps := batch.map (fun b => sample_timesteps no_time_information b.events)
    let tokensE : Except CollateError (List (List Int)) :=
      if resolution.length = 1 then
        .ok (batch.map (fun b => sample_tokens1 b.events))
      else if resolution.length = 2 then
        .ok (batch.map (fun b => sample_tokens2 (np_prod resolution) b.events))
      else
        .error .badResolution
    match tokensE with
    | .error e => .error e
    | .ok tokens =>
      let lengths := timesteps.map List.length
      let pad_length := pad_length_of (lengths_max lengths) pad_unit
      let tokens_p := tokens.map (pad_list (-1) pad_length)
      let timesteps_p :=
        (timesteps.map (pad_list 0 pad_length)).map (fun l => l.map to_ms)
      let lengthsA :=
        if batch.length = 1 then LengthsArr.twoD [lengths.map (fun n => Int.ofNat n)]
        else LengthsArr.oneD (lengths.map (fun n => Int.ofNat n))
      .ok ⟨tokens_p, y, timesteps_p, lengthsA⟩

/-- Token value at batch row `i`, position `j`, of a collation result
(an out-of-range access or an error result yields the marker `-99`,
which is never a token value of padded output since pads are `-1`). -/
def tokenAt (r : Except CollateError CollateOutput) (i j : Nat) : Int :=
  match r with
  | .ok o => (o.tokens.getD i []).getD j (-99)
  | .error _ => -99

/-- Timestep value at batch row `i`, position `j`, of a collation
result (marker `-99` for out-of-range or error). -/
def tsAt (r : Except CollateError CollateOutput) (i j : Nat) : ℚ :=
  match r with
  | .ok o => (o.timesteps.getD i []).getD j (-99)
  | .error _ => -99

/-- The lengths array of a collation output, flattened to a vector
(row-major), so that samples can be indexed uniformly in both the 1-D
and the reshaped 2-D case. -/
def lengthsVec (o : CollateOutput) : List Int :=
  match o.lengths with
  | .oneD l => l
  | .twoD ll => ll.flatten

/-- Token index formula exactly as the spec states it:
`index = x + width * y + width*height*polarity`. -/
def spec_token_encoding (width height : Nat) (x y p : Int) : Int :=
  x + (width : Int) * y + ((width : Int) * (height : Int)) * p

/-- Batch pad length exactly as the spec states it:
`ceil(max_len / pad_unit) * pad_unit`. -/
def spec_pad_length (max_len pad_unit : Nat) : Nat :=
  ((max_len + pad_unit - 1) / pad_unit) * pad_unit

instance : Inhabited Event := ⟨⟨0, 0, 0, 0⟩⟩

instance : Inhabited BatchElem := ⟨⟨[], 0, []⟩⟩

/-- The length of the longest per-sample delta sequence of a batch
(each sample contributes its raw event count minus one). -/
def max_delta_len (batch : List BatchElem) : Nat :=
  lengths_max (batch.map (fun b => b.events.length - 1))

/-!  Basic length and indexing lemmas about the per-sample arrays. -/

theorem sample_timesteps_length (nti : Bool) (es : List Event) :
    (sample_timesteps nti es).length = es.length - 1 := by
  cases nti with
  | false =>
    simp only [sample_timesteps, Bool.false_eq_true, if_false, np_diff, List.length_zipWith,
      List.length_tail, List.length_map]
    omega
  | true => simp [sample_timesteps]

theorem sample_tokens1_length (es : List Event) :
    (sample_tokens1 es).length = es.length - 1 := by
  simp [sample_tokens1]

theorem sample_tokens2_length (pr : Int) (es : List Event) :
    (sample_tokens2 pr es).length = es.length - 1 := by
  simp only [sample_tokens2, List.length_zipWith, List.length_map, List.length_dropLast]
  omega

theorem np_diff_getD (l : List Int) (j : Nat) (hj : j + 1 < l.length) (d : Int) :
    (np_diff l).getD j d = l.getD (j + 1) d - l.getD j d := by
  have hlen : j < (np_diff l).length := by
    simp only [np_diff, List.length_zipWith, List.length_tail]
    omega
  have hj0 : j < l.length := by omega
  have hjt : j < l.tail.length := by simp [List.length_tail]; omega
  rw [List.getD_eq_getElem _ _ hlen, List.getD_eq_getElem _ _ hj, List.getD_eq_getElem _ _ hj0]
  simp only [np_diff, List.getElem_zipWith, List.getElem_tail]

theorem sample_timesteps_false_getD (es : List Event) (j : Nat) (hj : j + 1 < es.length)
    (d : Int) :
    (sample_timesteps false es).getD j d = (es.getD (j + 1) default).t - (es.getD j default).t := by
  have h1 : j + 1 < (es.map Event.t).length := by simpa using hj
  have hj1 : j + 1 < es.length := hj
  have hj0 : j < es.length := by omega
  rw [sample_timesteps, if_neg (by simp), np_diff_getD _ _ h1,
    List.getD_eq_getElem _ _ h1, List.getD_eq_getElem _ _ (by simpa using hj0),
    List.getElem_map, List.getElem_map, List.getD_eq_getElem _ _ hj1,
    List.getD_eq_getElem _ _ hj0]

theorem sample_timesteps_true_getD (es : List Event) (j : Nat) (hj : j + 1 < es.length)
    (d : Int) :
    (sample_timesteps true es).getD j d = 1 := by
  have hlen : j < ((es.dropLast).map (fun _ => (1 : Int))).length := by
    simp [List.length_dropLast]; omega
  rw [sample_timesteps, if_pos rfl, List.getD_eq_getElem _ _ hlen, List.getElem_map]

theorem sample_tokens1_getD (es : List Event) (j : Nat) (hj : j + 1 < es.length) (d : Int) :
    (sample_tokens1 es).getD j d = (es.getD j default).x := by
  have hlen : j < (sample_tokens1 es).length := by rw [sample_tokens1_length]; omega
  have hd : j < es.dropLast.length := by simp [List.length_dropLast]; omega
  have hj0 : j < es.length := by omega
  rw [List.getD_eq_getElem _ _ hlen, List.getD_eq_getElem _ _ hj0]
  simp only [sample_tokens1, List.getElem_map, List.getElem_dropLast]

theorem sample_tokens2_getD (pr : Int) (es : List Event) (j : Nat) (hj : j + 1 < es.length)
    (d : Int) :
    (sample_tokens2 pr es).getD j d =
      (es.getD j default).x * (es.getD j default).y + pr * (es.getD j default).p := by
  have hlen : j < (sample_tokens2 pr es).length := by rw [sample_tokens2_length]; omega
  have hj0 : j < es.length := by omega
  rw [List.getD_eq_getElem _ _ hlen, List.getD_eq_getElem _ _ hj0]
  simp only [sample_tokens2, List.getElem_zipWith, List.getElem_map, List.getElem_dropLast]

theorem getD_map {α β : Type} (f : α → β) (l : List α) (i : Nat) (d : β) (a : α)
    (hi : i < l.length) :
    (l.map f).getD i d = f (l.getD i a) := by
  rw [List.getD_eq_getElem _ _ (by simpa using hi), List.getElem_map,
    List.getD_eq_getElem _ _ hi]

/-!  Padding lemmas. -/

theorem pad_list_length (c : Int) (n : Nat) (l : List Int) (h : l.length ≤ n) :
    (pad_list c n l).length = n := by
  simp only [pad_list, List.length_append, List.length_replicate]
  omega

theorem pad_list_getD_lt (c : Int) (n : Nat) (l : List Int) (j : Nat) (hj : j < l.length)
    (d : Int) :
    (pad_list c n l).getD j d = l.getD j d := by
  have hlen : j < (pad_list c n l).length := by
    simp only [pad_list, List.length_append, List.length_replicate]
    omega
  rw [List.getD_eq_getElem _ _ hlen, List.getD_eq_getElem _ _ hj]
  simp only [pad_list]
  exact List.getElem_append_left hj

theorem pad_list_getD_pad (c : Int) (n : Nat) (l : List Int) (j : Nat)
    (hj1 : l.length ≤ j) (hj2 : j < n) (d : Int) :
    (pad_list c n l).getD j d = c := by
  have hlen : j < (pad_list c n l).length := by
    simp only [pad_list, List.length_append, List.length_replicate]
    omega
  rw [List.getD_eq_getElem _ _ hlen]
  simp only [pad_list]
  rw [List.getElem_append_right hj1]
  exact List.getElem_replicate _ _

/-!  Maximum and pad-length arithmetic. -/

theorem init_le_foldl_max (l : List Nat) (a : Nat) : a ≤ l.foldl Nat.max a := by
  induction l generalizing a with
  | nil => exact Nat.le_refl a
  | cons y ys ih => exact Nat.le_trans (Nat.le_max_left a y) (ih (Nat.max a y))

theorem mem_le_foldl_max (l : List Nat) (a x : Nat) (hx : x ∈ l) : x ≤ l.foldl Nat.max a := by
  induction l generalizing a with
  | nil => cases hx
  | cons y ys ih =>
    rcases List.mem_cons.mp hx with h | h
    · subst h
      exact Nat.le_trans (Nat.le_max_right a x) (init_le_foldl_max ys _)
    · exact ih _ h

theorem mem_le_lengths_max (l : List Nat) (x : Nat) (hx : x ∈ l) : x ≤ lengths_max l :=
  mem_le_foldl_max l 0 x hx

theorem lt_pad_length_of (m u : Nat) (hu : 0 < u) : m < pad_length_of m u :=
  Nat.lt_div_mul_add hu

theorem pad_length_of_mod (m u : Nat) : pad_length_of m u % u = 0 := by
  simp [pad_length_of, Nat.add_mod, Nat.mul_mod_left, Nat.mod_self]

/-!  Reduction of the collation function on well-formed inputs. -/

theorem all_extra_false (batch : List BatchElem) (hpair : ∃ b ∈ batch, b.extra = []) :
    batch.all (fun b => !b.extra.isEmpty) = false := by
  rcases hpair with ⟨b, hb, he⟩
  rw [List.all_eq_false]
  exact ⟨b, hb, by simp [he]⟩

theorem collate_lengths_eq (nti : Bool) (batch : List BatchElem) :
    (batch.map (fun b => sample_timesteps nti b.events)).map List.length
      = batch.map (fun b => b.events.length - 1) := by
  rw [List.map_map]
  exact List.map_congr_left (fun b _ => sample_timesteps_length nti b.events)

/-- Closed form of the collation result in the 1-D resolution branch. -/
theorem collate_eq_one (batch : List BatchElem) (resolution : List Nat) (pad_unit : Nat)
    (nti : Bool) (hne : batch ≠ []) (hpair : ∃ b ∈ batch, b.extra = [])
    (hres : resolution.length = 1) :
    event_stream_collate_fn batch resolution pad_unit nti =
      .ok
        { tokens := batch.map (fun b =>
            pad_list (-1) (pad_length_of (max_delta_len batch) pad_unit)
              (sample_tokens1 b.events))
          labels := batch.map BatchElem.label
          timesteps := batch.map (fun b =>
            (pad_list 0 (pad_length_of (max_delta_len batch) pad_unit)
              (sample_timesteps nti b.events)).map to_ms)
          lengths :=
            if batch.length = 1 then
              LengthsArr.twoD [batch.map (fun b => Int.ofNat (b.events.length - 1))]
            else
              LengthsArr.oneD (batch.map (fun b => Int.ofNat (b.events.length - 1))) } := by
  have h1 : batch.isEmpty = false := by simpa [List.isEmpty_iff] using hne
  have h2 : batch.all (fun b => !b.extra.isEmpty) = false := all_extra_false batch hpair
  have h3 := collate_lengths_eq nti batch
  simp only [event_stream_collate_fn, h1, h2, hres, Bool.false_eq_true, if_false, if_true,
    if_pos rfl, h3, List.map_map, Function.comp_def, max_delta_len]

/-- Closed form of the collation result in the 2-D resolution branch. -/
theorem collate_eq_two (batch : List BatchElem) (resolution : List Nat) (pad_unit : Nat)
    (nti : Bool) (hne : batch ≠ []) (hpair : ∃ b ∈ batch, b.extra = [])
    (hres : resolution.length = 2) :
    event_stream_collate_fn batch resolution pad_unit nti =
      .ok
        { tokens := batch.map (fun b =>
            pad_list (-1) (pad_length_of (max_delta_len batch) pad_unit)
              (sample_tokens2 (np_prod resolution) b.events))
          labels := batch.map BatchElem.label
          timesteps := batch.map (fun b =>
            (pad_list 0 (pad_length_of (max_delta_len batch) pad_unit)
              (sample_timesteps nti b.events)).map to_ms)
          lengths :=
            if batch.length = 1 then
              LengthsArr.twoD [batch.map (fun b => Int.ofNat (b.events.length - 1))]
            else
              LengthsArr.oneD (batch.map (fun b => Int.ofNat (b.events.length - 1))) } := by
  have h1 : batch.isEmpty = false := by simpa [List.isEmpty_iff] using hne
  have h2 : batch.all (fun b => !b.extra.isEmpty) = false := all_extra_false batch hpair
  have h3 := collate_lengths_eq nti batch
  have hres1 : resolution.length ≠ 1 := by omega
  simp only [event_stream_collate_fn, h1, h2, hres, hres1, Bool.false_eq_true,
    show (((2 : Nat) = 1) = False) by simp, if_false, if_true, if_pos rfl, h3,
    List.map_map, Function.comp_def, max_delta_len]

/-- A collation call that returns a result was given a nonempty batch
containing at least one plain pair and a resolution of arity 1 or 2. -/
theorem collate_ok_inv (batch : List BatchElem) (resolution : List Nat) (pad_unit : Nat)
    (nti : Bool) (out : CollateOutput)
    (hok : event_stream_collate_fn batch resolution pad_unit nti = .ok out) :
    batch ≠ [] ∧ (∃ b ∈ batch, b.extra = []) ∧
      (resolution.length = 1 ∨ resolution.length = 2) := by
  by_cases h1 : batch.isEmpty
  · simp [event_stream_collate_fn, h1] at hok
  by_cases h2 : batch.all (fun b => !b.extra.isEmpty)
  · simp [event_stream_collate_fn, h1, h2] at hok
  refine ⟨by simpa [List.isEmpty_iff] using h1, ?_, ?_⟩
  · rcases List.all_eq_false.mp (Bool.eq_false_iff.mpr h2) with ⟨b, hb, he⟩
    exact ⟨b, hb, by simpa using he⟩
  · by_cases h3 : resolution.length = 1
    · exact Or.inl h3
    by_cases h4 : resolution.length = 2
    · exact Or.inr h4
    simp [event_stream_collate_fn, h1, h2, h3, h4] at hok

/-!  Further helper lemmas used by the claim theorems. -/

theorem lt_pad_list_length (c : Int) (n : Nat) (l : List Int) (j : Nat) (hj : j < l.length) :
    j < (pad_list c n l).length := by
  simp only [pad_list, List.length_append, List.length_replicate]
  omega

theorem np_prod_pair (w h : Nat) : np_prod [w, h] = Int.ofNat (w * h) := by
  simp [np_prod]

theorem delta_len_le_max (batch : List BatchElem) (b : BatchElem) (hb : b ∈ batch) :
    b.events.length - 1 ≤ max_delta_len batch :=
  mem_le_lengths_max _ _ (List.mem_map.mpr ⟨b, hb, rfl⟩)

/-- All rows of a collation result have length `pad_length_of`, and there
is one row of tokens and one row of timesteps per sample. -/
theorem collate_rows_length (batch : List BatchElem) (resolution : List Nat) (pad_unit : Nat)
    (nti : Bool) (out : CollateOutput)
    (hok : event_stream_collate_fn batch resolution pad_unit nti = .ok out)
    (hu : 0 < pad_unit) :
    out.tokens.length = batch.length ∧
    out.timesteps.length = batch.length ∧
    (∀ row ∈ out.tokens, row.length = pad_length_of (max_delta_len batch) pad_unit) ∧
    (∀ row ∈ out.timesteps, row.length = pad_length_of (max_delta_len batch) pad_unit) := by
  obtain ⟨hne, hpair, hres⟩ := collate_ok_inv batch resolution pad_unit nti out hok
  have hbase : ∀ b ∈ batch, b.events.length - 1 ≤ pad_length_of (max_delta_len batch) pad_unit :=
    fun b hb => Nat.le_trans (delta_len_le_max batch b hb)
      (Nat.le_of_lt (lt_pad_length_of _ _ hu))
  rcases hres with h | h
  · rw [collate_eq_one batch resolution pad_unit nti hne hpair h] at hok
    injection hok with hout
    subst hout
    refine ⟨by simp, by simp, ?_, ?_⟩
    · rw [List.forall_mem_map]
      intro b hb
      rw [pad_list_length]
      rw [sample_tokens1_length]
      exact hbase b hb
    · rw [List.forall_mem_map]
      intro b hb
      rw [List.length_map, pad_list_length]
      rw [sample_timesteps_length]
      exact hbase b hb
  · rw [collate_eq_two batch resolution pad_unit nti hne hpair h] at hok
    injection hok with hout
    subst hout
    refine ⟨by simp, by simp, ?_, ?_⟩
    · rw [List.forall_mem_map]
      intro b hb
      rw [pad_list_length]
      rw [sample_tokens2_length]
      exact hbase b hb
    · rw [List.forall_mem_map]
      intro b hb
      rw [List.length_map, pad_list_length]
      rw [sample_timesteps_length]
      exact hbase b hb

/-- The lengths vector of a collation result is the per-sample delta
lengths, in batch order, in both the 1-D and the reshaped 2-D case. -/
theorem collate_lengthsVec (batch : List BatchElem) (resolution : List Nat) (pad_unit : Nat)
    (nti : Bool) (out : CollateOutput)
    (hok : event_stream_collate_fn batch resolution pad_unit nti = .ok out) :
    lengthsVec out = batch.map (fun b => Int.ofNat (b.events.length - 1)) := by
  obtain ⟨hne, hpair, hres⟩ := collate_ok_inv batch resolution pad_unit nti out hok
  rcases hres with h | h
  · rw [collate_eq_one batch resolution pad_unit nti hne hpair h] at hok
    injection hok with hout
    subst hout
    by_cases hb : batch.length = 1 <;> simp [lengthsVec, hb]
  · rw [collate_eq_two batch resolution pad_unit nti hne hpair h] at hok
    injection hok with hout
    subst hout
    by_cases hb : batch.length = 1 <;> simp [lengthsVec, hb]

theorem lt_pad_list_length_right (c : Int) (n : Nat) (l : List Int) (j : Nat) (hj : j < n) :
    j < (pad_list c n l).length := by
  simp only [pad_list, List.length_append, List.length_replicate]
  omega

/-- The labels of a collation result are the stacked per-sample labels
in batch order. -/
theorem collate_labels (batch : List BatchElem) (resolution : List Nat) (pad_unit : Nat)
    (nti : Bool) (out : CollateOutput)
    (hok : event_stream_collate_fn batch resolution pad_unit nti = .ok out) :
    out.labels = batch.map BatchElem.label := by
  obtain ⟨hne, hpair, hres⟩ := collate_ok_inv batch resolution pad_unit nti out hok
  rcases hres with h | h
  · rw [collate_eq_one batch resolution pad_unit nti hne hpair h] at hok
    injection hok with hout
    subst hout
    rfl
  · rw [collate_eq_two batch resolution pad_unit nti hne hpair h] at hok
    injection hok with hout
    subst hout
    rfl

/-- Row `i` of the returned timestep array is the padded per-sample
delta sequence of sample `i`, rescaled to milliseconds. -/
theorem collate_timesteps_row (batch : List BatchElem) (resolution : List Nat)
    (pad_unit : Nat) (nti : Bool) (out : CollateOutput)
    (hok : event_stream_collate_fn batch resolution pad_unit nti = .ok out)
    (i : Nat) (hi : i < batch.length) :
    out.timesteps.getD i [] =
      (pad_list 0 (pad_length_of (max_delta_len batch) pad_unit)
        (sample_timesteps nti (batch.getD i default).events)).map to_ms := by
  obtain ⟨hne, hpair, hres⟩ := collate_ok_inv batch resolution pad_unit nti out hok
  rcases hres with h | h
  · rw [collate_eq_one batch resolution pad_unit nti hne hpair h] at hok
    injection hok with hout
    subst hout
    exact getD_map _ batch i [] default hi
  · rw [collate_eq_two batch resolution pad_unit nti hne hpair h] at hok
    injection hok with hout
    subst hout
    exact getD_map _ batch i [] default hi

/-- Row `i` of the returned token array in the 2-D resolution branch. -/
theorem collate_tokens_row_two (batch : List BatchElem) (resolution : List Nat)
    (pad_unit : Nat) (nti : Bool) (out : CollateOutput)
    (hok : event_stream_collate_fn batch resolution pad_unit nti = .ok out)
    (hres : resolution.length = 2) (i : Nat) (hi : i < batch.length) :
    out.tokens.getD i [] =
      pad_list (-1) (pad_length_of (max_delta_len batch) pad_unit)
        (sample_tokens2 (np_prod resolution) (batch.getD i default).events) := by
  obtain ⟨hne, hpair, _⟩ := collate_ok_inv batch resolution pad_unit nti out hok
  rw [collate_eq_two batch resolution pad_unit nti hne hpair hres] at hok
  injection hok with hout
  subst hout
  exact getD_map _ batch i [] default hi

/-- Row `i` of the returned token array is, in either resolution
branch, some per-sample token list of length one less than the raw
event count, padded with `-1`. -/
theorem collate_tokens_row_pad (batch : List BatchElem) (resolution : List Nat)
    (pad_unit : Nat) (nti : Bool) (out : CollateOutput)
    (hok : event_stream_collate_fn batch resolution pad_unit nti = .ok out)
    (i : Nat) (hi : i < batch.length) :
    ∃ base : List Int, base.length = (batch.getD i default).events.length - 1 ∧
      out.tokens.getD i [] =
        pad_list (-1) (pad_length_of (max_delta_len batch) pad_unit) base := by
  obtain ⟨hne, hpair, hres⟩ := collate_ok_inv batch resolution pad_unit nti out hok
  rcases hres with h | h
  · rw [collate_eq_one batch resolution pad_unit nti hne hpair h] at hok
    injection hok with hout
    subst hout
    exact ⟨sample_tokens1 (batch.getD i default).events,
      sample_tokens1_length _, getD_map _ batch i [] default hi⟩
  · rw [collate_eq_two batch resolution pad_unit nti hne hpair h] at hok
    injection hok with hout
    subst hout
    exact ⟨sample_tokens2 (np_prod resolution) (batch.getD i default).events,
      sample_tokens2_length _ _, getD_map _ batch i [] default hi⟩

/-!  Concrete inputs used by the witnesses and counterexamples. -/

/-- A singleton batch whose sample has three events. -/
def exBatch : List BatchElem :=
  [⟨[⟨0, 1, 0, 0⟩, ⟨10, 5, 7, 1⟩, ⟨30, 2, 3, 0⟩], 3, []⟩]

/-- The collation result of `exBatch` with resolution `(2, 2)` and pad
unit 4: two deltas, padded to length 4, lengths reshaped to 2-D. -/
def exOut : CollateOutput :=
  { tokens := [[0, 39, -1, -1]]
    labels := [3]
    timesteps := [[1/100, 1/50, 0, 0]]
    lengths := .twoD [[2]] }

/-- The collation result of `exBatch` with resolution `(2, 2)`, pad
unit 4 and the no-time-information mode set: the constant timesteps 1
are still divided by 1000. -/
def exOutNT : CollateOutput :=
  { tokens := [[0, 39, -1, -1]]
    labels := [3]
    timesteps := [[1/1000, 1/1000, 0, 0]]
    lengths := .twoD [[2]] }

/-- A singleton batch whose sample has five events, hence a delta
sequence of length 4 — exactly one pad unit of 4. -/
def cexBatch2 : List BatchElem :=
  [⟨[⟨0, 1, 0, 0⟩, ⟨10, 2, 0, 0⟩, ⟨20, 3, 0, 0⟩, ⟨30, 0, 0, 0⟩, ⟨40, 1, 0, 0⟩], 0, []⟩]

/-- A batch mixing a plain `(events, label)` pair with an element that
carries one extra component. -/
def mixedBatch : List BatchElem :=
  [⟨[⟨0, 1, 0, 0⟩, ⟨10, 5, 7, 1⟩], 5, []⟩,
   ⟨[⟨0, 2, 0, 0⟩, ⟨100, 5, 7, 1⟩], 7, [99]⟩]

/-- A batch in which every element carries an extra component beyond
the `(events, label)` pair. -/
def tripleBatch : List BatchElem :=
  [⟨[⟨0, 1, 0, 0⟩, ⟨10, 5, 7, 1⟩], 5, [1]⟩]

/-- A singleton batch whose sample has no events at all. -/
def zeroBatch : List BatchElem :=
  [⟨[], 7, []⟩]

/-- The collation result of `zeroBatch` with resolution `(1)` and pad
unit 4: the empty delta sequence is padded to one full pad unit and the
recorded length is 0. -/
def zeroOut : CollateOutput :=
  { tokens := [[-1, -1, -1, -1]]
    labels := [7]
    timesteps := [[0, 0, 0, 0]]
    lengths := .twoD [[0]] }

/-!  The claims. -/

/-- C4: for any batch of samples, the token array and the timestep
array returned by the collation routine have identical shape
`(batch_size, pad_length)`, where `pad_length` is a multiple of
`pad_unit` and `pad_length >= max(sample_lengths)`. -/
theorem C4_shapes (batch : List BatchElem) (resolution : List Nat) (pad_unit : Nat)
    (nti : Bool) (out : CollateOutput)
    (hok : event_stream_collate_fn batch resolution pad_unit nti = .ok out)
    (hu : 0 < pad_unit) :
    out.tokens.length = batch.length ∧
    out.timesteps.length = batch.length ∧
    (∀ row ∈ out.tokens, row.length = pad_length_of (max_delta_len batch) pad_unit) ∧
    (∀ row ∈ out.timesteps, row.length = pad_length_of (max_delta_len batch) pad_unit) ∧
    pad_length_of (max_delta_len batch) pad_unit % pad_unit = 0 ∧
    max_delta_len batch ≤ pad_length_of (max_delta_len batch) pad_unit := by
  obtain ⟨h1, h2, h3, h4⟩ := collate_rows_length batch resolution pad_unit nti out hok hu
  exact ⟨h1, h2, h3, h4, pad_length_of_mod _ _, Nat.le_of_lt (lt_pad_length_of _ _ hu)⟩

/-- C4 witness: the shape facts at the concrete batch `exBatch`. -/
theorem C4_witness :
    (event_stream_collate_fn exBatch [2, 2] 4 false = .ok exOut ∧ 0 < 4) ∧
    (exOut.tokens.length = exBatch.length ∧
     exOut.timesteps.length = exBatch.length ∧
     (∀ row ∈ exOut.tokens, row.length = pad_length_of (max_delta_len exBatch) 4) ∧
     (∀ row ∈ exOut.timesteps, row.length = pad_length_of (max_delta_len exBatch) 4) ∧
     pad_length_of (max_delta_len exBatch) 4 % 4 = 0 ∧
     max_delta_len exBatch ≤ pad_length_of (max_delta_len exBatch) 4) :=
  ⟨⟨by with_unfolding_all rfl, by decide⟩,
   C4_shapes exBatch [2, 2] 4 false exOut (by with_unfolding_all rfl) (by decide)⟩

/-- C5: for every sample of a collated batch, every token position at
an index at or beyond the sample's true length equals `-1`, and every
timestep position there equals `0`. -/
theorem C5_padding (batch : List BatchElem) (resolution : List Nat) (pad_unit : Nat)
    (nti : Bool) (out : CollateOutput)
    (hok : event_stream_collate_fn batch resolution pad_unit nti = .ok out)
    (i j : Nat) (hi : i < batch.length)
    (hj1 : (batch.getD i default).events.length - 1 ≤ j)
    (hj2 : j < pad_length_of (max_delta_len batch) pad_unit) :
    (out.tokens.getD i []).getD j 0 = -1 ∧
    (out.timesteps.getD i []).getD j 0 = 0 := by
  constructor
  · obtain ⟨base, hlen, hrow⟩ :=
      collate_tokens_row_pad batch resolution pad_unit nti out hok i hi
    rw [hrow, pad_list_getD_pad _ _ _ _ (by omega) hj2]
  · rw [collate_timesteps_row batch resolution pad_unit nti out hok i hi]
    have hbase : (sample_timesteps nti (batch.getD i default).events).length ≤ j := by
      rw [sample_timesteps_length]
      exact hj1
    have hlt : j < (pad_list 0 (pad_length_of (max_delta_len batch) pad_unit)
        (sample_timesteps nti (batch.getD i default).events)).length :=
      lt_pad_list_length_right _ _ _ _ hj2
    rw [getD_map to_ms _ j 0 0 hlt, pad_list_getD_pad _ _ _ _ hbase hj2]
    simp [to_ms]

/-- C5 witness: the padding facts at position 2 of `exBatch`, whose
sample has true length 2. -/
theorem C5_witness :
    (event_stream_collate_fn exBatch [2, 2] 4 false = .ok exOut ∧
     0 < exBatch.length ∧
     (exBatch.getD 0 default).events.length - 1 ≤ 2 ∧
     2 < pad_length_of (max_delta_len exBatch) 4) ∧
    ((exOut.tokens.getD 0 []).getD 2 0 = -1 ∧
     (exOut.timesteps.getD 0 []).getD 2 0 = 0) :=
  ⟨⟨by with_unfolding_all rfl, by decide, by decide, by decide⟩,
   C5_padding exBatch [2, 2] 4 false exOut (by with_unfolding_all rfl) 0 2
     (by decide) (by decide) (by decide)⟩

/-- C6 counterexample: a zero-event sample collates successfully
(`np.diff` of an empty timestamp array is empty) and its recorded
length is 0, while the claimed `len(events) - 1` would be −1. -/
theorem C6_counterexample :
    event_stream_collate_fn zeroBatch [1] 4 false = .ok zeroOut ∧
    (lengthsVec zeroOut).getD 0 0 = 0 ∧
    ((zeroBatch.getD 0 default).events.length : Int) - 1 = -1 ∧
    (lengthsVec zeroOut).getD 0 0 ≠
      ((zeroBatch.getD 0 default).events.length : Int) - 1 :=
  ⟨by with_unfolding_all rfl, by decide, by decide, by decide⟩

/-- C6 (amended): for every sample `i` of a collated batch, the
returned length vector satisfies `lengths[i] = len(events[i]) - 1`
when the sample has at least one raw event, and `lengths[i] = 0` for a
zero-event sample (the length of the empty delta sequence). -/
theorem C6_lengths (batch : List BatchElem) (resolution : List Nat) (pad_unit : Nat)
    (nti : Bool) (out : CollateOutput)
    (hok : event_stream_collate_fn batch resolution pad_unit nti = .ok out)
    (i : Nat) (hi : i < batch.length) :
    (1 ≤ (batch.getD i default).events.length →
      (lengthsVec out).getD i 0 = ((batch.getD i default).events.length : Int) - 1) ∧
    ((batch.getD i default).events.length = 0 →
      (lengthsVec out).getD i 0 = 0) := by
  rw [collate_lengthsVec batch resolution pad_unit nti out hok,
    getD_map _ batch i 0 default hi, Int.ofNat_eq_coe]
  constructor <;> intro h <;> omega

/-- C6 witness: the sample of `exBatch` has 3 raw events and its
recorded length is 2; the sample of `zeroBatch` has none and its
recorded length is 0. -/
theorem C6_witness :
    (event_stream_collate_fn exBatch [2, 2] 4 false = .ok exOut ∧
     0 < exBatch.length ∧ 1 ≤ (exBatch.getD 0 default).events.length) ∧
    (lengthsVec exOut).getD 0 0 = ((exBatch.getD 0 default).events.length : Int) - 1 ∧
    (lengthsVec zeroOut).getD 0 0 = 0 :=
  ⟨⟨by with_unfolding_all rfl, by decide, by decide⟩,
   (C6_lengths exBatch [2, 2] 4 false exOut (by with_unfolding_all rfl) 0
     (by decide)).1 (by decide),
   (C6_lengths zeroBatch [1] 4 false zeroOut (by with_unfolding_all rfl) 0
     (by decide)).2 (by decide)⟩

/-- C7: in the default time-information mode, every non-padded timestep
equals the difference of the sample's consecutive raw timestamps,
divided by 1000 (microseconds to milliseconds). -/
theorem C7_deltas (batch : List BatchElem) (resolution : List Nat) (pad_unit : Nat)
    (out : CollateOutput)
    (hok : event_stream_collate_fn batch resolution pad_unit false = .ok out)
    (i j : Nat) (hi : i < batch.length)
    (hj : j + 1 < (batch.getD i default).events.length) :
    (out.timesteps.getD i []).getD j 0 =
      (((((batch.getD i default).events.getD (j + 1) default).t -
          ((batch.getD i default).events.getD j default).t : Int) : ℚ)) / 1000 := by
  rw [collate_timesteps_row batch resolution pad_unit false out hok i hi]
  have hbase : j < (sample_timesteps false (batch.getD i default).events).length := by
    rw [sample_timesteps_length]
    omega
  have hlt := lt_pad_list_length 0 (pad_length_of (max_delta_len batch) pad_unit) _ j hbase
  rw [getD_map to_ms _ j 0 0 hlt, pad_list_getD_lt _ _ _ _ hbase,
    sample_timesteps_false_getD _ _ hj]
  rfl

/-- C7 witness: the first timestep of `exBatch` is (10 - 0)/1000. -/
theorem C7_witness :
    (event_stream_collate_fn exBatch [2, 2] 4 false = .ok exOut ∧
     0 < exBatch.length ∧ 0 + 1 < (exBatch.getD 0 default).events.length) ∧
    (exOut.timesteps.getD 0 []).getD 0 0 =
      (((((exBatch.getD 0 default).events.getD 1 default).t -
          ((exBatch.getD 0 default).events.getD 0 default).t : Int) : ℚ)) / 1000 :=
  ⟨⟨by with_unfolding_all rfl, by decide, by decide⟩,
   C7_deltas exBatch [2, 2] 4 exOut (by with_unfolding_all rfl) 0 0
     (by decide) (by decide)⟩

/-- C8: a resolution with a number of elements other than 1 or 2 makes
the routine raise immediately (an error result, nothing returned), and
with 1 or 2 elements this error branch is never taken (indeed no error
is raised at all). -/
theorem C8_resolution (batch : List BatchElem) (resolution : List Nat) (pad_unit : Nat)
    (nti : Bool) (hne : batch ≠ []) (hpair : ∃ b ∈ batch, b.extra = []) :
    (resolution.length ≠ 1 ∧ resolution.length ≠ 2 →
      event_stream_collate_fn batch resolution pad_unit nti = .error .badResolution) ∧
    (resolution.length = 1 ∨ resolution.length = 2 →
      ∀ e, event_stream_collate_fn batch resolution pad_unit nti ≠ .error e) := by
  have h1 : batch.isEmpty = false := by simpa [List.isEmpty_iff] using hne
  have h2 := all_extra_false batch hpair
  constructor
  · rintro ⟨hr1, hr2⟩
    simp [event_stream_collate_fn, h1, h2, hr1, hr2]
  · rintro (h | h) e
    · rw [collate_eq_one batch resolution pad_unit nti hne hpair h]
      simp
    · rw [collate_eq_two batch resolution pad_unit nti hne hpair h]
      simp

/-- C8 witness: a 3-element resolution raises on `exBatch`, and a
2-element resolution raises nothing. -/
theorem C8_witness :
    (exBatch ≠ [] ∧ (∃ b ∈ exBatch, b.extra = []) ∧
     ([1, 2, 3] : List Nat).length ≠ 1 ∧ ([1, 2, 3] : List Nat).length ≠ 2) ∧
    event_stream_collate_fn exBatch [1, 2, 3] 4 false = .error .badResolution ∧
    ∀ e, event_stream_collate_fn exBatch [2, 2] 4 false ≠ .error e :=
  ⟨⟨by decide, by decide, by decide, by decide⟩,
   (C8_resolution exBatch [1, 2, 3] 4 false (by decide) (by decide)).1
     ⟨by decide, by decide⟩,
   (C8_resolution exBatch [2, 2] 4 false (by decide) (by decide)).2 (Or.inr (by decide))⟩

/-- C9: a batch of exactly one sample yields a length vector with an
explicit leading batch dimension of size 1 (the 2-D reshaped form). -/
theorem C9_batch_one (batch : List BatchElem) (resolution : List Nat) (pad_unit : Nat)
    (nti : Bool) (out : CollateOutput)
    (hok : event_stream_collate_fn batch resolution pad_unit nti = .ok out)
    (hb : batch.length = 1) :
    out.lengths =
      LengthsArr.twoD [batch.map (fun b => Int.ofNat (b.events.length - 1))] := by
  obtain ⟨hne, hpair, hres⟩ := collate_ok_inv batch resolution pad_unit nti out hok
  rcases hres with h | h
  · rw [collate_eq_one batch resolution pad_unit nti hne hpair h] at hok
    injection hok with hout
    subst hout
    simp [hb]
  · rw [collate_eq_two batch resolution pad_unit nti hne hpair h] at hok
    injection hok with hout
    subst hout
    simp [hb]

/-- C9 witness: `exBatch` has one sample and its length vector is the
2-D `[[2]]`. -/
theorem C9_witness :
    (event_stream_collate_fn exBatch [2, 2] 4 false = .ok exOut ∧ exBatch.length = 1) ∧
    exOut.lengths =
      LengthsArr.twoD [exBatch.map (fun b => Int.ofNat (b.events.length - 1))] :=
  ⟨⟨by with_unfolding_all rfl, by decide⟩,
   C9_batch_one exBatch [2, 2] 4 false exOut (by with_unfolding_all rfl) (by decide)⟩

/-!  C1: the token encoding (corrected). -/

/-- C1 counterexample: the spec formula `x + width*y + width*height*p`
gives 1 at the first event of `exBatch` (x = 1, y = 0, p = 0, width =
height = 2), but the collation routine computes
`x*y + width*height*p = 0` there — a non-padded position, since the
sample's true length is 2. -/
theorem C1_counterexample :
    event_stream_collate_fn exBatch [2, 2] 4 false = .ok exOut ∧
    (0 : Int) < (lengthsVec exOut).getD 0 0 ∧
    tokenAt (event_stream_collate_fn exBatch [2, 2] 4 false) 0 0 = 0 ∧
    spec_token_encoding 2 2 1 0 0 = 1 ∧
    tokenAt (event_stream_collate_fn exBatch [2, 2] 4 false) 0 0 ≠
      spec_token_encoding 2 2 1 0 0 := by
  have h0 : tokenAt (event_stream_collate_fn exBatch [2, 2] 4 false) 0 0 = 0 := rfl
  refine ⟨by with_unfolding_all rfl, by decide, h0, rfl, ?_⟩
  rw [h0]
  decide

/-- C1 (amended): for a 2-element resolution `(width, height)`, every
non-padded token equals `x*y + width*height*polarity` — the product
`x*y` of the coordinates, not the raster index `x + width*y`. -/
theorem C1_tokens (batch : List BatchElem) (w h pad_unit : Nat) (nti : Bool)
    (out : CollateOutput)
    (hok : event_stream_collate_fn batch [w, h] pad_unit nti = .ok out)
    (i j : Nat) (hi : i < batch.length)
    (hj : j + 1 < (batch.getD i default).events.length) :
    (out.tokens.getD i []).getD j 0 =
      ((batch.getD i default).events.getD j default).x *
        ((batch.getD i default).events.getD j default).y +
      Int.ofNat (w * h) * ((batch.getD i default).events.getD j default).p := by
  rw [collate_tokens_row_two batch [w, h] pad_unit nti out hok rfl i hi]
  have hbase : j < (sample_tokens2 (np_prod [w, h]) (batch.getD i default).events).length := by
    rw [sample_tokens2_length]
    omega
  rw [pad_list_getD_lt _ _ _ _ hbase, sample_tokens2_getD _ _ _ hj, np_prod_pair]

/-- C1 witness: the second token of `exBatch` is 39 = 5*7 + 4*1. -/
theorem C1_witness :
    (event_stream_collate_fn exBatch [2, 2] 4 false = .ok exOut ∧
     0 < exBatch.length ∧ 1 + 1 < (exBatch.getD 0 default).events.length) ∧
    (exOut.tokens.getD 0 []).getD 1 0 =
      ((exBatch.getD 0 default).events.getD 1 default).x *
        ((exBatch.getD 0 default).events.getD 1 default).y +
      Int.ofNat (2 * 2) * ((exBatch.getD 0 default).events.getD 1 default).p :=
  ⟨⟨by with_unfolding_all rfl, by decide, by decide⟩,
   C1_tokens exBatch 2 2 4 false exOut (by with_unfolding_all rfl) 0 1
     (by decide) (by decide)⟩

/-!  C2: the batch pad length (corrected). -/

theorem pad_length_of_eq_succ_mul (m u : Nat) :
    pad_length_of m u = (m / u + 1) * u := by
  simp [pad_length_of, Nat.add_mul]

theorem spec_pad_length_of_not_dvd (m u : Nat) (hu : 0 < u) (hnd : ¬ u ∣ m) :
    spec_pad_length m u = (m / u + 1) * u := by
  obtain ⟨q, r, hm, hrlt, hr0⟩ : ∃ q r, m = u * q + r ∧ r < u ∧ r ≠ 0 := by
    refine ⟨m / u, m % u, (Nat.div_add_mod m u).symm, Nat.mod_lt _ hu, ?_⟩
    exact fun hc => hnd (Nat.dvd_of_mod_eq_zero hc)
  subst hm
  have hq : (u * q + r) / u = q := by
    rw [Nat.mul_add_div hu, Nat.div_eq_of_lt hrlt, Nat.add_zero]
  have hdist : u * (q + 1) = u * q + u := by ring
  have hkey : u * q + r + u - 1 = u * (q + 1) + (r - 1) := by omega
  calc spec_pad_length (u * q + r) u
      = ((u * q + r + u - 1) / u) * u := rfl
    _ = ((u * (q + 1) + (r - 1)) / u) * u := by rw [hkey]
    _ = (q + 1 + (r - 1) / u) * u := by rw [Nat.mul_add_div hu]
    _ = (q + 1) * u := by rw [Nat.div_eq_of_lt (show r - 1 < u by omega), Nat.add_zero]
    _ = ((u * q + r) / u + 1) * u := by rw [hq]

theorem spec_pad_length_of_dvd (m u : Nat) (hu : 0 < u) (hd : u ∣ m) :
    spec_pad_length m u + u = (m / u + 1) * u := by
  obtain ⟨q, rfl⟩ := hd
  have hq : u * q / u = q := Nat.mul_div_cancel_left q hu
  have hkey : u * q + u - 1 = u * q + (u - 1) := by omega
  calc spec_pad_length (u * q) u + u
      = ((u * q + u - 1) / u) * u + u := rfl
    _ = ((u * q + (u - 1)) / u) * u + u := by rw [hkey]
    _ = (q + (u - 1) / u) * u + u := by rw [Nat.mul_add_div hu]
    _ = q * u + u := by rw [Nat.div_eq_of_lt (show u - 1 < u by omega), Nat.add_zero]
    _ = (q + 1) * u := by ring
    _ = (u * q / u + 1) * u := by rw [hq]

/-- C2 counterexample: `cexBatch2` has longest delta sequence 4 and pad
unit 4; the routine pads rows to length 8, while the spec formula
`ceil(4/4)*4` gives 4. -/
theorem C2_counterexample :
    max_delta_len cexBatch2 = 4 ∧
    (event_stream_collate_fn cexBatch2 [4] 4 false).map
        (fun o => (o.tokens.getD 0 []).length) = .ok 8 ∧
    spec_pad_length (max_delta_len cexBatch2) 4 = 4 ∧ (8 : Nat) ≠ 4 :=
  ⟨by decide, by with_unfolding_all rfl, by decide, by decide⟩

/-- C2 (amended): the batch pad length is
`(max_len // pad_unit + 1) * pad_unit`, the least multiple of
`pad_unit` strictly greater than `max_len`; this agrees with the spec
formula `ceil(max_len / pad_unit) * pad_unit` exactly when `pad_unit`
does not divide `max_len`, and is one full pad unit larger when it
does. -/
theorem C2_pad_length (batch : List BatchElem) (resolution : List Nat) (pad_unit : Nat)
    (nti : Bool) (out : CollateOutput)
    (hok : event_stream_collate_fn batch resolution pad_unit nti = .ok out)
    (hu : 0 < pad_unit) :
    (∀ row ∈ out.tokens, row.length = pad_length_of (max_delta_len batch) pad_unit) ∧
    pad_length_of (max_delta_len batch) pad_unit
      = (max_delta_len batch / pad_unit + 1) * pad_unit ∧
    max_delta_len batch < pad_length_of (max_delta_len batch) pad_unit ∧
    (¬ pad_unit ∣ max_delta_len batch →
      pad_length_of (max_delta_len batch) pad_unit
        = spec_pad_length (max_delta_len batch) pad_unit) ∧
    (pad_unit ∣ max_delta_len batch →
      pad_length_of (max_delta_len batch) pad_unit
        = spec_pad_length (max_delta_len batch) pad_unit + pad_unit) := by
  obtain ⟨_, _, h3, _⟩ := collate_rows_length batch resolution pad_unit nti out hok hu
  refine ⟨h3, pad_length_of_eq_succ_mul _ _, lt_pad_length_of _ _ hu, ?_, ?_⟩
  · intro hnd
    rw [pad_length_of_eq_succ_mul, spec_pad_length_of_not_dvd _ _ hu hnd]
  · intro hd
    rw [pad_length_of_eq_succ_mul, ← spec_pad_length_of_dvd _ _ hu hd]

/-- C2 witness: the pad-length facts at the concrete batch `exBatch`
(longest delta sequence 2, pad unit 4, rows padded to 4). -/
theorem C2_witness :
    (event_stream_collate_fn exBatch [2, 2] 4 false = .ok exOut ∧ 0 < 4) ∧
    ((∀ row ∈ exOut.tokens, row.length = pad_length_of (max_delta_len exBatch) 4) ∧
     pad_length_of (max_delta_len exBatch) 4 = (max_delta_len exBatch / 4 + 1) * 4 ∧
     max_delta_len exBatch < pad_length_of (max_delta_len exBatch) 4 ∧
     (¬ (4 ∣ max_delta_len exBatch) →
       pad_length_of (max_delta_len exBatch) 4
         = spec_pad_length (max_delta_len exBatch) 4) ∧
     ((4 ∣ max_delta_len exBatch) →
       pad_length_of (max_delta_len exBatch) 4
         = spec_pad_length (max_delta_len exBatch) 4 + 4)) :=
  ⟨⟨by with_unfolding_all rfl, by decide⟩,
   C2_pad_length exBatch [2, 2] 4 false exOut (by with_unfolding_all rfl) (by decide)⟩

/-!  C3: timesteps in no-time-information mode (corrected). -/

/-- C3 counterexample: with the no-time-information mode configured,
the first non-padded timestep returned for `exBatch` is 1/1000, not
the constant 1, because the microseconds-to-milliseconds division is
applied unconditionally. -/
theorem C3_counterexample :
    tsAt (event_stream_collate_fn exBatch [2, 2] 4 true) 0 0 = 1 / 1000 ∧
    (1 / 1000 : ℚ) ≠ 1 :=
  ⟨rfl, by norm_num⟩

/-- C3 (amended): when the no-time-information mode is configured,
every non-padded timestep returned equals the constant 1/1000 — the
constant 1 chosen in that mode, divided by the unconditional
microseconds-to-milliseconds rescale factor 1000. -/
theorem C3_no_time (batch : List BatchElem) (resolution : List Nat) (pad_unit : Nat)
    (out : CollateOutput)
    (hok : event_stream_collate_fn batch resolution pad_unit true = .ok out)
    (i j : Nat) (hi : i < batch.length)
    (hj : j + 1 < (batch.getD i default).events.length) :
    (out.timesteps.getD i []).getD j 0 = 1 / 1000 := by
  rw [collate_timesteps_row batch resolution pad_unit true out hok i hi]
  have hbase : j < (sample_timesteps true (batch.getD i default).events).length := by
    rw [sample_timesteps_length]
    omega
  have hlt := lt_pad_list_length 0 (pad_length_of (max_delta_len batch) pad_unit) _ j hbase
  rw [getD_map to_ms _ j 0 0 hlt, pad_list_getD_lt _ _ _ _ hbase,
    sample_timesteps_true_getD _ _ hj]
  norm_num [to_ms]

/-- C3 witness: the first timestep of `exBatch` collated in
no-time-information mode is 1/1000. -/
theorem C3_witness :
    (event_stream_collate_fn exBatch [2, 2] 4 true = .ok exOutNT ∧
     0 < exBatch.length ∧ 0 + 1 < (exBatch.getD 0 default).events.length) ∧
    (exOutNT.timesteps.getD 0 []).getD 0 0 = 1 / 1000 :=
  ⟨⟨by with_unfolding_all rfl, by decide, by decide⟩,
   C3_no_time exBatch [2, 2] 4 exOutNT (by with_unfolding_all rfl) 0 0
     (by decide) (by decide)⟩

/-!  C10: the pair-shape assertion (corrected). -/

/-- C10 counterexample: the second element of `mixedBatch` carries a
third component, yet no assertion fails — Python zip truncates to the
shortest tuple, silently dropping that component — and a full result
with the stacked labels is returned. -/
theorem C10_counterexample :
    (mixedBatch.getD 1 default).extra = [99] ∧
    (event_stream_collate_fn mixedBatch [1] 4 false).map CollateOutput.labels
      = .ok [5, 7] :=
  ⟨by decide, by with_unfolding_all rfl⟩

/-- A collation call on a batch containing at least one plain pair
never fails the assertion, whatever the resolution. -/
theorem collate_ne_assert (batch : List BatchElem) (resolution : List Nat) (pad_unit : Nat)
    (nti : Bool) (hne : batch ≠ []) (hpair : ∃ b ∈ batch, b.extra = []) :
    event_stream_collate_fn batch resolution pad_unit nti ≠ .error .assertExtra := by
  by_cases hr1 : resolution.length = 1
  · rw [collate_eq_one batch resolution pad_unit nti hne hpair hr1]
    simp
  by_cases hr2 : resolution.length = 2
  · rw [collate_eq_two batch resolution pad_unit nti hne hpair hr2]
    simp
  have h1 : batch.isEmpty = false := by simpa [List.isEmpty_iff] using hne
  have h2 := all_extra_false batch hpair
  simp [event_stream_collate_fn, h1, h2, hr1, hr2]

/-- On a batch containing at least one plain pair, the extra components
of the other elements are silently dropped: the result is the same as
for the batch with all extra components removed. -/
theorem collate_drop_extra (batch : List BatchElem) (resolution : List Nat) (pad_unit : Nat)
    (nti : Bool) (hne : batch ≠ []) (hpair : ∃ b ∈ batch, b.extra = []) :
    event_stream_collate_fn batch resolution pad_unit nti =
      event_stream_collate_fn
        (batch.map (fun b => { b with extra := ([] : List Int) }))
        resolution pad_unit nti := by
  have hne2 : batch.map (fun b => { b with extra := ([] : List Int) }) ≠ [] := by
    simpa using hne
  have hpair2 : ∃ b ∈ batch.map (fun b => { b with extra := ([] : List Int) }),
      b.extra = [] := by
    obtain ⟨b, hb⟩ := List.exists_mem_of_ne_nil batch hne
    exact ⟨_, List.mem_map.mpr ⟨b, hb, rfl⟩, rfl⟩
  by_cases hr1 : resolution.length = 1
  · rw [collate_eq_one batch resolution pad_unit nti hne hpair hr1,
      collate_eq_one _ resolution pad_unit nti hne2 hpair2 hr1]
    simp only [List.map_map, List.length_map, max_delta_len, Function.comp_def]
  by_cases hr2 : resolution.length = 2
  · rw [collate_eq_two batch resolution pad_unit nti hne hpair hr2,
      collate_eq_two _ resolution pad_unit nti hne2 hpair2 hr2]
    simp only [List.map_map, List.length_map, max_delta_len, Function.comp_def]
  have h1 : batch.isEmpty = false := by simpa [List.isEmpty_iff] using hne
  have h1b : (batch.map (fun b => { b with extra := ([] : List Int) })).isEmpty = false := by
    simpa [List.isEmpty_iff] using hne2
  have h2 := all_extra_false batch hpair
  have h2b := all_extra_false _ hpair2
  simp [event_stream_collate_fn, h1, h1b, h2, h2b, hr1, hr2]

/-- C10 (amended): the assertion fails exactly when every batch element
carries a component beyond the `(events, label)` pair — `zip(*batch)`
truncates to the shortest element, so extra components present in only
some elements are silently dropped (the result equals that of the
batch with all extras removed); and whenever a result is returned, its
labels are the per-sample labels stacked in batch order. -/
theorem C10_pairs (batch : List BatchElem) (resolution : List Nat) (pad_unit : Nat)
    (nti : Bool) (hne : batch ≠ []) :
    (event_stream_collate_fn batch resolution pad_unit nti = .error .assertExtra ↔
      ∀ b ∈ batch, b.extra ≠ []) ∧
    ((∃ b ∈ batch, b.extra = []) →
      event_stream_collate_fn batch resolution pad_unit nti =
        event_stream_collate_fn
          (batch.map (fun b => { b with extra := ([] : List Int) }))
          resolution pad_unit nti) ∧
    (∀ out, event_stream_collate_fn batch resolution pad_unit nti = .ok out →
      out.labels = batch.map BatchElem.label) := by
  have h1 : batch.isEmpty = false := by simpa [List.isEmpty_iff] using hne
  refine ⟨⟨?_, ?_⟩, collate_drop_extra batch resolution pad_unit nti hne, ?_⟩
  · intro hres
    by_contra hcon
    push_neg at hcon
    exact collate_ne_assert batch resolution pad_unit nti hne
      (by simpa using hcon) hres
  · intro hall
    have h2 : batch.all (fun b => !b.extra.isEmpty) = true := by
      rw [List.all_eq_true]
      intro b hb
      simpa [List.isEmpty_iff] using hall b hb
    simp [event_stream_collate_fn, h1, h2]
  · exact fun out hout => collate_labels batch resolution pad_unit nti out hout

/-- C10 witness: an all-triples batch makes the assertion fail, and on
the mixed batch the extra component is dropped: the result equals that
of the extra-free batch. -/
theorem C10_witness :
    (tripleBatch ≠ [] ∧ (∀ b ∈ tripleBatch, b.extra ≠ []) ∧
     mixedBatch ≠ [] ∧ (∃ b ∈ mixedBatch, b.extra = [])) ∧
    event_stream_collate_fn tripleBatch [1] 4 false = .error .assertExtra ∧
    event_stream_collate_fn mixedBatch [1] 4 false =
      event_stream_collate_fn
        (mixedBatch.map (fun b => { b with extra := ([] : List Int) })) [1] 4 false :=
  ⟨⟨by decide, by decide, by decide, by decide⟩,
   ((C10_pairs tripleBatch [1] 4 false (by decide)).1).mpr (by decide),
   (C10_pairs mixedBatch [1] 4 false (by decide)).2.1 (by decide)⟩

end EventSSM
